import Mathlib

/-!
A verification development for the multi-storage-client repository's
read-cache engine (`cacheline.go` contents, given here as the fetch worker,
`notifyWaiters`, `touch`, and `cachePrune`) and for the S3 / AIStore backend
drivers (`backend_aistore.go`, which also carries the S3 driver).

Go maps are embedded as association lists over `Nat` keys; Go pointers to
`cacheLineStruct` values are embedded as `Nat` identifiers into a heap
(`globalsStruct.lines`); the `container/list` LRU is embedded as a `List Nat`
of identifiers whose head is the front (least recently used) end and whose
last element is the back (most recently used) end.  Go `uint64` decrement
wraps modulo `2 ^ 64`.  Backend I/O (`readFileWrapper`, `api.HeadObject`,
`api.GetObject`, `ListObjectsV2`, ...) is external to the core and is
embedded as explicit result parameters (`Except Unit _`).
-/

namespace Msfs

/-- Go map read `m[k]` over an association list: the value at the first
matching key, if any. -/
def alistFind {α : Type} : List (Nat × α) → Nat → Option α
  | [], _ => none
  | (k, v) :: rest, n => if k = n then some v else alistFind rest n

/-- In-place mutation of the entry at key `k` (a Go struct update through a
pointer held in a map); a no-op when the key is absent. -/
def alistUpdate {α : Type} : List (Nat × α) → Nat → α → List (Nat × α)
  | [], _, _ => []
  | (k, v) :: rest, n, v' =>
      if k = n then (k, v') :: rest else (k, v) :: alistUpdate rest n v'

/-- Go map `delete(m, k)`: removes the first entry at key `k`. -/
def alistErase {α : Type} : List (Nat × α) → Nat → List (Nat × α)
  | [], _ => []
  | (k, v) :: rest, n => if k = n then rest else (k, v) :: alistErase rest n

/-- Go `x--` on a `uint64` counter: wraps modulo `2 ^ 64`. -/
def dec64 (x : Nat) : Nat := (x + (2 ^ 64 - 1)) % 2 ^ 64

/-- The four cache-line states (`CacheLineInbound` | `CacheLineClean` |
`CacheLineOutbound` | `CacheLineDirty`); only the first two are reachable in
this release. -/
inductive cacheLineStateType where
  | CacheLineInbound
  | CacheLineClean
  | CacheLineOutbound
  | CacheLineDirty
deriving DecidableEq, Repr

/-- Modelled from the spec: the Go definition of `cacheLineStruct` is not in
the given sources; its fields are those the given fetch worker, `touch`,
`notifyWaiters` and `cachePrune` read and write, matching spec §3 "Cache
line" (owning inode number, line number, state, recorded ETag, byte buffer,
waiter list).  Waiters (`*sync.WaitGroup`) are identifiers; the LRU
placement handle (`listElement`) is represented by membership of the line's
identifier in `globalsStruct.cleanCacheLineLRU`. -/
structure cacheLineStruct where
  inodeNumber : Nat
  lineNumber : Nat
  state : cacheLineStateType
  eTag : String
  content : List Nat
  waiters : List Nat
deriving DecidableEq, Repr

/-- Modelled from the spec: the Go definition of `inodeStruct` is not in the
given sources; its fields are those the given cache-engine code reads
(`objectPath`, `inboundCacheLineCount`, the line-number-to-cache-line map
`cache`) plus the open-time recorded `eTag` of spec §3 "Inode".  The `cache`
map takes a line number to a cache-line identifier. -/
structure inodeStruct where
  objectPath : String
  eTag : String
  inboundCacheLineCount : Nat
  cache : List (Nat × Nat)
deriving DecidableEq, Repr

/-- Modelled from the spec: configuration fields consumed by the cache
engine (spec §4.3, §6.3): the capacity `cacheLines`. -/
structure configStruct where
  cacheLines : Nat
deriving DecidableEq, Repr

/-- Modelled from the spec: the Go definition of `globalsStruct` is not in
the given sources; the fields are those the given cache-engine code uses:
the inode map, the global inbound count, the clean LRU (front = LRU end,
back = MRU end), and the configuration.  `lines` is the heap of cache-line
structs addressed by identifier (Go pointers). -/
structure globalsStruct where
  inodeMap : List (Nat × inodeStruct)
  inboundCacheLineCount : Nat
  cleanCacheLineLRU : List Nat
  lines : List (Nat × cacheLineStruct)
  config : configStruct
deriving DecidableEq, Repr

/-- The `readFileInputStruct` as built by the fetch worker: object path, cache
line number, and the `ifMatch` precondition string. -/
structure readFileInputStruct where
  filePath : String
  offsetCacheLine : Nat
  ifMatch : String
deriving DecidableEq, Repr

/-- The `readFileOutputStruct`: the ETag observed by the read and the bytes. -/
structure readFileOutputStruct where
  eTag : String
  buf : List Nat
deriving DecidableEq, Repr

/-- Reading `lookupLine g id` yields the cache-line struct behind identifier `id`. -/
def lookupLine (g : globalsStruct) (id : Nat) : Option cacheLineStruct :=
  alistFind g.lines id

/-- Writing `updateLine g id cl` stores the cache-line struct behind identifier
`id` (mutation through the Go pointer). -/
def updateLine (g : globalsStruct) (id : Nat) (cl : cacheLineStruct) : globalsStruct :=
  { g with lines := alistUpdate g.lines id cl }

/-- Writing `updateInode g n ino` stores the inode struct at inode number `n`. -/
def updateInode (g : globalsStruct) (n : Nat) (ino : inodeStruct) : globalsStruct :=
  { g with inodeMap := alistUpdate g.inodeMap n ino }

/-- Method `notifyWaiters` notifies all those in the `.waiters` slice (one
`waiter.Done()` per entry, in order) and empties the slice.  The first
component is the sequence of `Done` signals delivered; the second is the
line with `.waiters` emptied. -/
def notifyWaiters (cl : cacheLineStruct) : List Nat × cacheLineStruct :=
  (cl.waiters, { cl with waiters := [] })

/-- Which path of the fetch worker ran to completion. -/
inductive fetchOutcomeType where
  | ghostLine
  | missingInodeEarly
  | errorPath
  | successPath
deriving DecidableEq, Repr

/-- Observable trace of one fetch-worker run: the final global state, the
path taken, the `ifMatch` string passed to `readFileWrapper` (none when no
backend call was made), the number of backend calls, the `Done` signals
delivered, and the line's state at the moment `notifyWaiters` ran. -/
structure fetchTraceStruct where
  finalG : globalsStruct
  outcome : fetchOutcomeType
  ifMatchSent : Option String
  backendCalls : Nat
  notified : List Nat
  stateAtNotify : cacheLineStateType
deriving DecidableEq, Repr

/-- Method `(*cacheLineStruct) fetch()`: the fetch worker.  `oracle` is the result
of `readFileWrapper(backend.context, readFileInput)`; `mid` is the
interference of other tasks on the global state during the window in which
the worker holds no lock (between the `globals.Unlock()` before the backend
call and the `globals.Lock()` after it).  The three completion paths are:
case 1, the inode is already gone before the backend call (line cleared,
counter decremented, line pushed onto the back of the clean LRU, waiters
notified); the error path (same clearing after decrementing the inode's
inbound count when the inode still exists); and the success path (buffer
and ETag installed from the read, state set to `CacheLineClean`, counters
decremented, line pushed onto the back of the clean LRU, waiters
notified).  The `ghostLine` branch covers an identifier with no struct
behind it, which cannot arise in the Go original (the worker holds the
pointer). -/
def cacheLineFetch (g : globalsStruct) (clId : Nat)
    (oracle : readFileInputStruct → Except Unit readFileOutputStruct)
    (mid : globalsStruct → globalsStruct) : fetchTraceStruct :=
  match alistFind g.lines clId with
  | none =>
      { finalG := g, outcome := .ghostLine, ifMatchSent := none,
        backendCalls := 0, notified := [], stateAtNotify := .CacheLineClean }
  | some cl =>
    match alistFind g.inodeMap cl.inodeNumber with
    | none =>
        let cl1 : cacheLineStruct :=
          { cl with
              state := .CacheLineClean
              eTag := ""
              content := [] }
        let nw := notifyWaiters cl1
        let g1 : globalsStruct :=
          { (updateLine g clId nw.2) with
              inboundCacheLineCount := dec64 g.inboundCacheLineCount,
              cleanCacheLineLRU := g.cleanCacheLineLRU ++ [clId] }
        { finalG := g1, outcome := .missingInodeEarly, ifMatchSent := none,
          backendCalls := 0, notified := nw.1, stateAtNotify := cl1.state }
    | some inode =>
      let readFileInput : readFileInputStruct :=
        { filePath := inode.objectPath, offsetCacheLine := cl.lineNumber,
          ifMatch := "" }
      let gm := mid g
      match oracle readFileInput with
      | .error _ =>
          let gA : globalsStruct :=
            match alistFind gm.inodeMap cl.inodeNumber with
            | some ino2 =>
                updateInode gm cl.inodeNumber
                  { ino2 with inboundCacheLineCount := dec64 ino2.inboundCacheLineCount }
            | none => gm
          let clA := (alistFind gA.lines clId).getD cl
          let clB : cacheLineStruct :=
            { clA with
                state := .CacheLineClean
                eTag := ""
                content := [] }
          let nw := notifyWaiters clB
          let gB : globalsStruct :=
            { (updateLine gA clId nw.2) with
                inboundCacheLineCount := dec64 gA.inboundCacheLineCount,
                cleanCacheLineLRU := gA.cleanCacheLineLRU ++ [clId] }
          { finalG := gB, outcome := .errorPath,
            ifMatchSent := some readFileInput.ifMatch, backendCalls := 1,
            notified := nw.1, stateAtNotify := clB.state }
      | .ok readFileOutput =>
          let gA : globalsStruct :=
            match alistFind gm.inodeMap cl.inodeNumber with
            | some ino2 =>
                updateInode gm cl.inodeNumber
                  { ino2 with inboundCacheLineCount := dec64 ino2.inboundCacheLineCount }
            | none => gm
          let clA := (alistFind gA.lines clId).getD cl
          let clB : cacheLineStruct :=
            { clA with
                state := .CacheLineClean
                eTag := readFileOutput.eTag
                content := readFileOutput.buf }
          let nw := notifyWaiters clB
          let gB : globalsStruct :=
            { (updateLine gA clId nw.2) with
                inboundCacheLineCount := dec64 gA.inboundCacheLineCount,
                cleanCacheLineLRU := gA.cleanCacheLineLRU ++ [clId] }
          { finalG := gB, outcome := .successPath,
            ifMatchSent := some readFileInput.ifMatch, backendCalls := 1,
            notified := nw.1, stateAtNotify := clB.state }

/-- Loop body of `cachePrune()`.  `none` models a `Fatalf` abort (the type
assertion on the list element, the inode-map lookup, or the inode-cache
lookup failing).  The `fuel` argument is an artifact that makes the
recursion structural; each iteration pops one element off the clean LRU, so
any `fuel` exceeding the LRU length never reaches `0`
(`cachePruneLoop_fuel` below). -/
def cachePruneLoop : Nat → globalsStruct → Option globalsStruct
  | 0, g => some g
  | fuel + 1, g =>
    if g.config.cacheLines ≤ g.inboundCacheLineCount + g.cleanCacheLineLRU.length then
      match g.cleanCacheLineLRU with
      | [] => some g
      | clId :: rest =>
        match alistFind g.lines clId with
        | none => none
        | some cacheLineToEvict =>
          let g1 : globalsStruct := { g with cleanCacheLineLRU := rest }
          match alistFind g1.inodeMap cacheLineToEvict.inodeNumber with
          | none => none
          | some inode =>
            match alistFind inode.cache cacheLineToEvict.lineNumber with
            | none => none
            | some _ =>
                cachePruneLoop fuel
                  (updateInode g1 cacheLineToEvict.inodeNumber
                    { inode with
                        cache := alistErase inode.cache cacheLineToEvict.lineNumber })
    else some g

/-- Function `cachePrune()`: called under the global lock; trims the clean LRU while
`inboundCacheLineCount + cleanCacheLineLRU.Len() >= config.cacheLines`,
evicting from the front (LRU) end and deleting each evicted line from its
inode's `cache` map.  `none` models a `Fatalf` abort. -/
def cachePrune (g : globalsStruct) : Option globalsStruct :=
  cachePruneLoop (g.cleanCacheLineLRU.length + 1) g

/-! ### Backend drivers (`backend_aistore.go`)

The AWS / AIStore SDK calls are external I/O; each driver function takes
the results of the calls it would make (`Except Unit _`, the error payload
being opaque) and returns the calls it performed together with its output
and error. -/

/-- Driver-level errors distinguished by the embedded code: an opaque
backend/SDK error, the `errors.New("eTag mismatch")` result, and the
`errors.New("missing directory")` result. -/
inductive driverErrType where
  | backendErr
  | eTagMismatch
  | missingDirectory
deriving DecidableEq, Repr

/-- The kinds of backend calls a driver function can issue. -/
inductive backendOpType where
  | headOp
  | getOp
deriving DecidableEq, Repr

/-- Result of a driver `readFile`: the backend calls performed in order,
the output (if any), and the error (if any). -/
structure driverReadResultStruct where
  ops : List backendOpType
  output : Option readFileOutputStruct
  errMsg : Option driverErrType
deriving DecidableEq, Repr

/-- Go `strings.TrimLeft(strings.TrimRight(s, "\x22"), "\x22")`: strips every
trailing and then every leading double-quote character, as the S3 driver
does to ETags before comparison. -/
def trimQuotes (s : String) : String :=
  String.mk
    ((((s.toList.reverse).dropWhile (fun c => c = '"')).reverse).dropWhile
      (fun c => c = '"'))

/-- The `HeadObject` output as the S3 driver consumes it: the ETag header,
which may be absent (`s3HeadObjectOutput.ETag == nil`). -/
structure s3HeadOutputStruct where
  eTag : Option String
deriving DecidableEq, Repr

/-- The `GetObject` output as the S3 driver consumes it: the ETag header (may
be `nil`) and the result of `io.ReadAll(Body)` (which may itself fail). -/
structure s3GetOutputStruct where
  eTag : Option String
  body : Except Unit (List Nat)
deriving Repr

/-- Method `(*s3ContextStruct) readFile`: always issues `HeadObject` first (with
`IfMatch` set when `ifMatch` is non-empty); when `ifMatch` is non-empty and
the HEAD's ETag is present but differs from `ifMatch` after quote
trimming, returns `errors.New("eTag mismatch")` with no output; otherwise
issues `GetObject` over the line's byte range and returns its ETag (empty
when `nil`) and body. -/
def s3ReadFile (input : readFileInputStruct)
    (headRes : Except Unit s3HeadOutputStruct)
    (getRes : Except Unit s3GetOutputStruct) : driverReadResultStruct :=
  match headRes with
  | .error _ => { ops := [.headOp], output := none, errMsg := some .backendErr }
  | .ok s3HeadObjectOutput =>
    let doGet : driverReadResultStruct :=
      match getRes with
      | .error _ =>
          { ops := [.headOp, .getOp], output := none, errMsg := some .backendErr }
      | .ok s3GetObjectOutput =>
        let eTagOut : String :=
          match s3GetObjectOutput.eTag with
          | none => ""
          | some e => e
        match s3GetObjectOutput.body with
        | .ok b =>
            { ops := [.headOp, .getOp],
              output := some { eTag := eTagOut, buf := b }, errMsg := none }
        | .error _ =>
            { ops := [.headOp, .getOp],
              output := some { eTag := eTagOut, buf := [] },
              errMsg := some .backendErr }
    if input.ifMatch ≠ "" then
      match s3HeadObjectOutput.eTag with
      | some e =>
          if input.ifMatch ≠ trimQuotes e then
            { ops := [.headOp], output := none, errMsg := some .eTagMismatch }
          else doGet
      | none => doGet
    else doGet

/-- The `api.HeadObject` output as the AIStore driver consumes it:
`props.Cksum`, which may be `nil`; when present, its `.Value()`. -/
structure aisHeadOutputStruct where
  cksum : Option String
deriving DecidableEq, Repr

/-- The `api.GetObject` output as the AIStore driver consumes it: the object
attributes' checksum value and the bytes written into the buffer. -/
structure aisGetOutputStruct where
  cksumValue : String
  body : List Nat
deriving DecidableEq, Repr

/-- Method `(*aistoreContextStruct) readFile`: when `ifMatch` is non-empty, first
issues `api.HeadObject`; a HEAD failure is returned as-is, and a present
checksum differing from `ifMatch` returns `errors.New("eTag mismatch")`
with no output.  Then issues `api.GetObject` over the line's byte range. -/
def aisReadFile (input : readFileInputStruct)
    (headRes : Except Unit aisHeadOutputStruct)
    (getRes : Except Unit aisGetOutputStruct) : driverReadResultStruct :=
  let doGet : List backendOpType → driverReadResultStruct := fun opsSoFar =>
    match getRes with
    | .error _ =>
        { ops := opsSoFar ++ [.getOp], output := none, errMsg := some .backendErr }
    | .ok oah =>
        { ops := opsSoFar ++ [.getOp],
          output := some { eTag := oah.cksumValue, buf := oah.body },
          errMsg := none }
  if input.ifMatch ≠ "" then
    match headRes with
    | .error _ => { ops := [.headOp], output := none, errMsg := some .backendErr }
    | .ok props =>
      match props.cksum with
      | some c =>
          if c ≠ input.ifMatch then
            { ops := [.headOp], output := none, errMsg := some .eTagMismatch }
          else doGet [.headOp]
      | none => doGet [.headOp]
  else doGet []

/-- Method `(*aistoreContextStruct) statDirectory`: lists one page under the full
directory path.  `listRes` is the `api.ListObjectsPage` result; its payload
is `none` when `lsoResult == nil` or `lsoResult.Entries == nil`, and
`some entries` otherwise.  A listing error is returned as-is; a nil or
empty entry set yields `errors.New("missing directory")`; otherwise
success. -/
def aisStatDirectory (listRes : Except Unit (Option (List String))) :
    Option driverErrType :=
  match listRes with
  | .error _ => some .backendErr
  | .ok none => some .missingDirectory
  | .ok (some entries) =>
      if entries.length = 0 then some .missingDirectory else none

/-- Method `(*s3ContextStruct) statDirectory`: lists one page (`MaxKeys = 1`)
under the full directory path `backend.prefix + dirPath`.  `listRes`
carries `(CommonPrefixes, Contents)` on success.  A listing error is
returned as-is; when the full directory path is non-empty and both lists
are empty, yields `errors.New("missing directory")`; otherwise success. -/
def s3StatDirectory (fullDirPath : String)
    (listRes : Except Unit (List String × List String)) :
    Option driverErrType :=
  match listRes with
  | .error _ => some .backendErr
  | .ok lists =>
      if fullDirPath ≠ "" ∧ lists.1.length + lists.2.length = 0 then
        some .missingDirectory
      else none

/-- Result of the token/context portion of `setupAIStoreContext`. -/
structure aisSetupResultStruct where
  token : String
  contextRegistered : Bool
  err : Option driverErrType
deriving DecidableEq, Repr

/-- The AuthN-token selection and context registration of
`setupAIStoreContext` (the HTTP client, TLS and bucket construction carry
no decision relevant here): the token comes from `authnToken` when
non-empty, else from `authn.LoadToken(authnTokenFile)` when a file is
configured — a load failure is discarded (`err = nil`) and the token
defaults to empty — and the context is stored unconditionally; the
function returns no error on this path. -/
def setupAIStoreContext (authnToken authnTokenFile : String)
    (loadToken : String → Except Unit String) : aisSetupResultStruct :=
  let token : String :=
    if authnToken = "" then
      if authnTokenFile = "" then ""
      else
        match loadToken authnTokenFile with
        | .ok t => t
        | .error _ => ""
    else authnToken
  { token := token, contextRegistered := true, err := none }

/-! ### Association-list lemmas -/

theorem alistFind_update {α : Type} (l : List (Nat × α)) (k j : Nat) (v : α) :
    alistFind (alistUpdate l k v) j =
      if k = j then
        (if (alistFind l k).isSome then some v else none)
      else alistFind l j := by
  induction l with
  | nil => simp [alistFind, alistUpdate]
  | cons p rest ih =>
    obtain ⟨k', v'⟩ := p
    by_cases hk : k' = k
    · subst hk
      simp only [alistUpdate, alistFind, if_pos rfl]
      by_cases hj : k' = j
      · subst hj
        simp [alistFind]
      · have hjk : ¬ k' = j := hj
        simp [alistFind, hjk]
    · simp only [alistUpdate, alistFind, if_neg hk]
      by_cases hj : k' = j
      · subst hj
        have hkj : ¬ k = k' := fun h => hk h.symm
        simp [alistFind, hkj, hk]
      · simp only [alistFind, if_neg hj]
        rw [ih]

theorem alistUpdate_keys {α : Type} (l : List (Nat × α)) (k : Nat) (v : α) :
    (alistUpdate l k v).map Prod.fst = l.map Prod.fst := by
  induction l with
  | nil => simp [alistUpdate]
  | cons p rest ih =>
    obtain ⟨k', v'⟩ := p
    by_cases hk : k' = k
    · simp [alistUpdate, hk]
    · simp [alistUpdate, hk, ih]

theorem alistFind_erase_ne {α : Type} (l : List (Nat × α)) (k j : Nat)
    (h : k ≠ j) : alistFind (alistErase l k) j = alistFind l j := by
  induction l with
  | nil => simp [alistErase]
  | cons p rest ih =>
    obtain ⟨k', v'⟩ := p
    by_cases hk : k' = k
    · subst hk
      have hj : ¬ k' = j := h
      simp [alistErase, alistFind, hj]
    · by_cases hj : k' = j
      · subst hj
        have hjk : ¬ k' = k := hk
        simp [alistErase, alistFind, hjk]
      · simp [alistErase, alistFind, hk, hj, ih]

theorem alistErase_keys_sublist {α : Type} (l : List (Nat × α)) (k : Nat) :
    ((alistErase l k).map Prod.fst).Sublist (l.map Prod.fst) := by
  induction l with
  | nil => simp [alistErase]
  | cons p rest ih =>
    obtain ⟨k', v'⟩ := p
    by_cases hk : k' = k
    · simp only [alistErase, if_pos hk, List.map_cons]
      exact List.Sublist.cons k' (List.Sublist.refl _)
    · simp only [alistErase, if_neg hk, List.map_cons]
      exact List.Sublist.cons₂ k' ih

theorem alistFind_eq_none_of_not_mem {α : Type} (l : List (Nat × α)) (k : Nat)
    (h : k ∉ l.map Prod.fst) : alistFind l k = none := by
  induction l with
  | nil => simp [alistFind]
  | cons p rest ih =>
    obtain ⟨k', v'⟩ := p
    simp only [List.map_cons, List.mem_cons] at h
    push_neg at h
    have hk : ¬ k' = k := fun hh => h.1 hh.symm
    simp [alistFind, hk, ih h.2]

theorem alistFind_erase_self {α : Type} (l : List (Nat × α)) (k : Nat)
    (h : (l.map Prod.fst).Nodup) : alistFind (alistErase l k) k = none := by
  induction l with
  | nil => simp [alistErase, alistFind]
  | cons p rest ih =>
    obtain ⟨k', v'⟩ := p
    simp only [List.map_cons, List.nodup_cons] at h
    by_cases hk : k' = k
    · subst hk
      simp only [alistErase, if_pos rfl]
      exact alistFind_eq_none_of_not_mem rest k' h.1
    · simp [alistErase, alistFind, hk, ih h.2]

/-! ### Fetch-path equation lemmas -/

/-- Reduction of the fetch worker on the success path when the owning
inode is present both before the backend call and at completion. -/
theorem cacheLineFetch_ok_eq (g : globalsStruct) (clId : Nat)
    (oracle : readFileInputStruct → Except Unit readFileOutputStruct)
    (mid : globalsStruct → globalsStruct)
    (cl clm : cacheLineStruct) (ino0 ino1 : inodeStruct)
    (out : readFileOutputStruct)
    (hcl : alistFind g.lines clId = some cl)
    (hino0 : alistFind g.inodeMap cl.inodeNumber = some ino0)
    (hor : oracle { filePath := ino0.objectPath, offsetCacheLine := cl.lineNumber,
                    ifMatch := "" } = .ok out)
    (hino1 : alistFind (mid g).inodeMap cl.inodeNumber = some ino1)
    (hclm : alistFind (mid g).lines clId = some clm) :
    cacheLineFetch g clId oracle mid =
      { finalG :=
          { (updateLine
               (updateInode (mid g) cl.inodeNumber
                 { ino1 with
                     inboundCacheLineCount := dec64 ino1.inboundCacheLineCount })
               clId
               { clm with
                   state := .CacheLineClean
                   eTag := out.eTag
                   content := out.buf
                   waiters := [] }) with
              inboundCacheLineCount := dec64 (mid g).inboundCacheLineCount
              cleanCacheLineLRU := (mid g).cleanCacheLineLRU ++ [clId] },
        outcome := .successPath, ifMatchSent := some "", backendCalls := 1,
        notified := clm.waiters, stateAtNotify := .CacheLineClean } := by
  unfold cacheLineFetch
  rw [hcl]
  dsimp only
  rw [hino0]
  dsimp only
  rw [hor]
  dsimp only [updateInode, updateLine, notifyWaiters]
  rw [hino1]
  dsimp only
  rw [hclm]
  dsimp only [Option.getD]

/-- Reduction of the fetch worker on the error path when the owning inode
is present both before the backend call and at completion. -/
theorem cacheLineFetch_err_eq (g : globalsStruct) (clId : Nat)
    (oracle : readFileInputStruct → Except Unit readFileOutputStruct)
    (mid : globalsStruct → globalsStruct)
    (cl clm : cacheLineStruct) (ino0 ino1 : inodeStruct)
    (hcl : alistFind g.lines clId = some cl)
    (hino0 : alistFind g.inodeMap cl.inodeNumber = some ino0)
    (hor : oracle { filePath := ino0.objectPath, offsetCacheLine := cl.lineNumber,
                    ifMatch := "" } = .error ())
    (hino1 : alistFind (mid g).inodeMap cl.inodeNumber = some ino1)
    (hclm : alistFind (mid g).lines clId = some clm) :
    cacheLineFetch g clId oracle mid =
      { finalG :=
          { (updateLine
               (updateInode (mid g) cl.inodeNumber
                 { ino1 with
                     inboundCacheLineCount := dec64 ino1.inboundCacheLineCount })
               clId
               { clm with
                   state := .CacheLineClean
                   eTag := ""
                   content := []
                   waiters := [] }) with
              inboundCacheLineCount := dec64 (mid g).inboundCacheLineCount
              cleanCacheLineLRU := (mid g).cleanCacheLineLRU ++ [clId] },
        outcome := .errorPath, ifMatchSent := some "", backendCalls := 1,
        notified := clm.waiters, stateAtNotify := .CacheLineClean } := by
  unfold cacheLineFetch
  rw [hcl]
  dsimp only
  rw [hino0]
  dsimp only
  rw [hor]
  dsimp only [updateInode, updateLine, notifyWaiters]
  rw [hino1]
  dsimp only
  rw [hclm]
  dsimp only [Option.getD]

/-! ### cachePrune invariants -/

/-- Invariants of a completed `cachePruneLoop` run, for any fuel exceeding
the LRU length: counters, configuration and line structs are untouched;
the LRU only loses a front segment; on normal return the system is under
capacity or the LRU is empty; inodes are neither added nor removed; no
inode-cache entry is inserted; and (given per-inode cache-key uniqueness,
which Go maps guarantee) every evicted line's entry has been deleted from
its inode's cache map. -/
theorem cachePruneLoop_spec (fuel : Nat) :
    ∀ (g g' : globalsStruct),
      g.cleanCacheLineLRU.length < fuel →
      (∀ n ino, alistFind g.inodeMap n = some ino → (ino.cache.map Prod.fst).Nodup) →
      cachePruneLoop fuel g = some g' →
      (g'.inboundCacheLineCount = g.inboundCacheLineCount ∧
       g'.config = g.config ∧
       g'.lines = g.lines) ∧
      (∃ evicted, g.cleanCacheLineLRU = evicted ++ g'.cleanCacheLineLRU) ∧
      (g'.inboundCacheLineCount + g'.cleanCacheLineLRU.length < g'.config.cacheLines ∨
        g'.cleanCacheLineLRU = []) ∧
      (∀ n, (alistFind g'.inodeMap n).isSome = (alistFind g.inodeMap n).isSome) ∧
      (∀ n ino' ln v, alistFind g'.inodeMap n = some ino' →
         alistFind ino'.cache ln = some v →
         ∃ ino, alistFind g.inodeMap n = some ino ∧ alistFind ino.cache ln = some v) ∧
      (∀ id, id ∈ g.cleanCacheLineLRU → id ∉ g'.cleanCacheLineLRU →
         ∃ cl, alistFind g.lines id = some cl ∧
           ∀ ino', alistFind g'.inodeMap cl.inodeNumber = some ino' →
             alistFind ino'.cache cl.lineNumber = none) := by
  induction fuel with
  | zero =>
    intro g g' hlen _ _
    exact absurd hlen (Nat.not_lt_zero _)
  | succ fuel ih =>
    intro g g' hlen hnd h
    simp only [cachePruneLoop] at h
    by_cases hcap :
        g.config.cacheLines ≤ g.inboundCacheLineCount + g.cleanCacheLineLRU.length
    · rw [if_pos hcap] at h
      rcases hlru : g.cleanCacheLineLRU with _ | ⟨clId, rest⟩
      · rw [hlru] at h
        dsimp only at h
        injection h with h
        subst h
        refine ⟨⟨rfl, rfl, rfl⟩, ⟨[], by simp [hlru]⟩, Or.inr hlru, fun n => rfl,
          ?_, ?_⟩
        · intro n ino' ln v h1 h2
          exact ⟨ino', h1, h2⟩
        · intro id hin hout
          exact absurd hin (List.not_mem_nil id)
      · rw [hlru] at h
        dsimp only at h
        rcases hfind : alistFind g.lines clId with _ | cl
        · rw [hfind] at h
          exact absurd h (by simp)
        · rw [hfind] at h
          dsimp only at h
          rcases hino : alistFind g.inodeMap cl.inodeNumber with _ | ino
          · rw [hino] at h
            exact absurd h (by simp)
          · rw [hino] at h
            dsimp only at h
            rcases hcache : alistFind ino.cache cl.lineNumber with _ | cid
            · rw [hcache] at h
              exact absurd h (by simp)
            · rw [hcache] at h
              have hlen2 : (updateInode { g with cleanCacheLineLRU := rest }
                  cl.inodeNumber
                  { ino with cache := alistErase ino.cache cl.lineNumber
                  }).cleanCacheLineLRU.length < fuel := by
                rw [hlru] at hlen
                exact Nat.lt_of_succ_lt_succ hlen
              have hnd2 : ∀ n ino2,
                  alistFind (updateInode { g with cleanCacheLineLRU := rest }
                      cl.inodeNumber
                      { ino with cache := alistErase ino.cache cl.lineNumber
                      }).inodeMap n = some ino2 →
                  (ino2.cache.map Prod.fst).Nodup := by
                intro n ino2 h2
                rw [show (updateInode { g with cleanCacheLineLRU := rest }
                    cl.inodeNumber
                    { ino with cache := alistErase ino.cache cl.lineNumber
                    }).inodeMap =
                    alistUpdate g.inodeMap cl.inodeNumber
                      { ino with cache := alistErase ino.cache cl.lineNumber }
                    from rfl] at h2
                rw [alistFind_update] at h2
                by_cases hn : cl.inodeNumber = n
                · rw [if_pos hn, hino] at h2
                  simp only [Option.isSome_some, if_true] at h2
                  injection h2 with h2
                  subst h2
                  exact (alistErase_keys_sublist ino.cache cl.lineNumber).nodup
                    (hnd _ _ hino)
                · rw [if_neg hn] at h2
                  exact hnd _ _ h2
              obtain ⟨⟨hA1, hA2, hA3⟩, ⟨ev2, hev2⟩, hC, hD, hE, hF⟩ :=
                ih _ g' hlen2 hnd2 h
              have hrest : rest = ev2 ++ g'.cleanCacheLineLRU := hev2
              refine ⟨⟨hA1, hA2, hA3⟩, ⟨clId :: ev2, by simp [hlru, hrest]⟩,
                hC, ?_, ?_, ?_⟩
              · intro n
                refine (hD n).trans ?_
                rw [show (updateInode { g with cleanCacheLineLRU := rest }
                    cl.inodeNumber
                    { ino with cache := alistErase ino.cache cl.lineNumber
                    }).inodeMap =
                    alistUpdate g.inodeMap cl.inodeNumber
                      { ino with cache := alistErase ino.cache cl.lineNumber }
                    from rfl, alistFind_update]
                by_cases hn : cl.inodeNumber = n
                · rw [if_pos hn, hino, ← hn, hino]
                  rfl
                · rw [if_neg hn]
              · intro n ino' ln v h1 h2
                obtain ⟨ino2, hg2find, hentry⟩ := hE n ino' ln v h1 h2
                rw [show (updateInode { g with cleanCacheLineLRU := rest }
                    cl.inodeNumber
                    { ino with cache := alistErase ino.cache cl.lineNumber
                    }).inodeMap =
                    alistUpdate g.inodeMap cl.inodeNumber
                      { ino with cache := alistErase ino.cache cl.lineNumber }
                    from rfl, alistFind_update] at hg2find
                by_cases hn : cl.inodeNumber = n
                · rw [if_pos hn, hino] at hg2find
                  simp only [Option.isSome_some, if_true] at hg2find
                  injection hg2find with hg2find
                  subst hg2find
                  by_cases hln : cl.lineNumber = ln
                  · rw [← hln,
                      alistFind_erase_self ino.cache cl.lineNumber
                        (hnd _ _ hino)] at hentry
                    exact absurd hentry (by simp)
                  · rw [alistFind_erase_ne ino.cache cl.lineNumber ln hln] at hentry
                    exact ⟨ino, hn ▸ hino, hentry⟩
                · rw [if_neg hn] at hg2find
                  exact ⟨ino2, hg2find, hentry⟩
              · intro id hidin hidout
                rcases List.mem_cons.mp hidin with hid | hid
                · subst hid
                  refine ⟨cl, hfind, ?_⟩
                  intro ino' hfind'
                  rcases hfx : alistFind ino'.cache cl.lineNumber with _ | v
                  · rfl
                  · exfalso
                    obtain ⟨ino2, hg2f, hent⟩ :=
                      hE cl.inodeNumber ino' cl.lineNumber v hfind' hfx
                    rw [show (updateInode { g with cleanCacheLineLRU := rest }
                        cl.inodeNumber
                        { ino with cache := alistErase ino.cache cl.lineNumber
                        }).inodeMap =
                        alistUpdate g.inodeMap cl.inodeNumber
                          { ino with cache := alistErase ino.cache cl.lineNumber }
                        from rfl, alistFind_update, if_pos rfl, hino] at hg2f
                    simp only [Option.isSome_some, if_true] at hg2f
                    injection hg2f with hg2f
                    subst hg2f
                    rw [alistFind_erase_self ino.cache cl.lineNumber
                        (hnd _ _ hino)] at hent
                    exact absurd hent (by simp)
                · obtain ⟨cl2, hfind2, hprop⟩ := hF id hid hidout
                  exact ⟨cl2, hfind2, hprop⟩
    · rw [if_neg hcap] at h
      injection h with h
      subst h
      refine ⟨⟨rfl, rfl, rfl⟩, ⟨[], rfl⟩, Or.inl (by omega), fun n => rfl, ?_, ?_⟩
      · intro n ino' ln v h1 h2
        exact ⟨ino', h1, h2⟩
      · intro id hin hout
        exact absurd hin hout

/-- C4: `cachePrune`, called under the global lock, loops while
`inbound_count + clean_lru.length >= cache_lines`; each iteration removes
the line at the front (least-recently-used) end of the clean LRU and
deletes it from its inode's cache map; it never alters a line struct, the
inbound count, the configuration, or the set of inodes, so it removes
only lines taken from the clean LRU (in particular no `Inbound` line,
which is never on that list); and it returns as soon as the clean LRU is
empty while still over capacity, otherwise only once under capacity.
The key-uniqueness hypothesis is what Go maps guarantee. -/
theorem cachePrune_spec (g g' : globalsStruct)
    (hnd : ∀ n ino, alistFind g.inodeMap n = some ino →
      (ino.cache.map Prod.fst).Nodup)
    (h : cachePrune g = some g') :
    (g'.inboundCacheLineCount = g.inboundCacheLineCount ∧
     g'.config = g.config ∧
     g'.lines = g.lines) ∧
    (∃ evicted, g.cleanCacheLineLRU = evicted ++ g'.cleanCacheLineLRU) ∧
    (g'.inboundCacheLineCount + g'.cleanCacheLineLRU.length < g'.config.cacheLines ∨
      g'.cleanCacheLineLRU = []) ∧
    (∀ n, (alistFind g'.inodeMap n).isSome = (alistFind g.inodeMap n).isSome) ∧
    (∀ n ino' ln v, alistFind g'.inodeMap n = some ino' →
       alistFind ino'.cache ln = some v →
       ∃ ino, alistFind g.inodeMap n = some ino ∧ alistFind ino.cache ln = some v) ∧
    (∀ id, id ∈ g.cleanCacheLineLRU → id ∉ g'.cleanCacheLineLRU →
       ∃ cl, alistFind g.lines id = some cl ∧
         ∀ ino', alistFind g'.inodeMap cl.inodeNumber = some ino' →
           alistFind ino'.cache cl.lineNumber = none) :=
  cachePruneLoop_spec (g.cleanCacheLineLRU.length + 1) g g'
    (Nat.lt_succ_self _) hnd h

/-- The inode of the `cachePrune` witness state. -/
def inoC4 : inodeStruct :=
  { objectPath := "obj", eTag := "e", inboundCacheLineCount := 0,
    cache := [(0, 2)] }

/-- The `cachePrune` witness state: capacity 1, one `Clean` line (identifier
2) on the LRU, no inbound lines. -/
def gC4 : globalsStruct :=
  { inodeMap := [(5, inoC4)], inboundCacheLineCount := 0,
    cleanCacheLineLRU := [2],
    lines :=
      [(2, { inodeNumber := 5, lineNumber := 0, state := .CacheLineClean,
             eTag := "e", content := [1], waiters := [] })],
    config := { cacheLines := 1 } }

/-- The state `cachePrune` produces from `gC4`: line 2 evicted from the
LRU and deleted from inode 5's cache map. -/
def gC4' : globalsStruct :=
  { inodeMap := [(5, { inoC4 with cache := [] })], inboundCacheLineCount := 0,
    cleanCacheLineLRU := [],
    lines :=
      [(2, { inodeNumber := 5, lineNumber := 0, state := .CacheLineClean,
             eTag := "e", content := [1], waiters := [] })],
    config := { cacheLines := 1 } }

/-- C4, witness: the prune invariants at the concrete run
`cachePrune gC4 = some gC4'`. -/
theorem cachePrune_spec_witness :
    (gC4'.inboundCacheLineCount = gC4.inboundCacheLineCount ∧
     gC4'.config = gC4.config ∧
     gC4'.lines = gC4.lines) ∧
    (∃ evicted, gC4.cleanCacheLineLRU = evicted ++ gC4'.cleanCacheLineLRU) ∧
    (gC4'.inboundCacheLineCount + gC4'.cleanCacheLineLRU.length <
        gC4'.config.cacheLines ∨
      gC4'.cleanCacheLineLRU = []) ∧
    (∀ n, (alistFind gC4'.inodeMap n).isSome = (alistFind gC4.inodeMap n).isSome) ∧
    (∀ n ino' ln v, alistFind gC4'.inodeMap n = some ino' →
       alistFind ino'.cache ln = some v →
       ∃ ino, alistFind gC4.inodeMap n = some ino ∧ alistFind ino.cache ln = some v) ∧
    (∀ id, id ∈ gC4.cleanCacheLineLRU → id ∉ gC4'.cleanCacheLineLRU →
       ∃ cl, alistFind gC4.lines id = some cl ∧
         ∀ ino', alistFind gC4'.inodeMap cl.inodeNumber = some ino' →
           alistFind ino'.cache cl.lineNumber = none) :=
  cachePrune_spec gC4 gC4'
    (by
      intro n ino h
      have h2 : (if 5 = n then some inoC4 else none) = some ino := h
      split at h2
      · cases h2
        decide
      · cases h2)
    (by decide)

/-! ### Concrete fixtures -/

/-- A file inode with a non-empty recorded (open-time) ETag, one inbound
line. -/
def inoC1 : inodeStruct :=
  { objectPath := "obj", eTag := "abc", inboundCacheLineCount := 1,
    cache := [(0, 1)] }

/-- An `Inbound` cache line of inode 5, line number 0. -/
def clC1 : cacheLineStruct :=
  { inodeNumber := 5, lineNumber := 0, state := .CacheLineInbound,
    eTag := "", content := [], waiters := [] }

/-- Global state for the `ifMatch` counterexample: inode 5 present with
recorded ETag `"abc"`, its line 0 inbound. -/
def gC1 : globalsStruct :=
  { inodeMap := [(5, inoC1)], inboundCacheLineCount := 1,
    cleanCacheLineLRU := [], lines := [(1, clC1)], config := { cacheLines := 8 } }

/-- Global state for the reconfigure-remove-during-fetch scenario: like
`gC1` but with a waiter attached to the inbound line. -/
def gC2 : globalsStruct :=
  { inodeMap := [(5, inoC1)], inboundCacheLineCount := 1,
    cleanCacheLineLRU := [], lines := [(1, { clC1 with waiters := [10] })],
    config := { cacheLines := 8 } }

/-- Global state for the missing-prune counterexample: capacity 1, one
`Clean` line (identifier 2) already on the LRU, one inbound line
(identifier 1) completing. -/
def gC3 : globalsStruct :=
  { inodeMap :=
      [(5, { objectPath := "obj", eTag := "abc", inboundCacheLineCount := 1,
             cache := [(0, 1), (1, 2)] })],
    inboundCacheLineCount := 1,
    cleanCacheLineLRU := [2],
    lines :=
      [(1, clC1),
       (2, { inodeNumber := 5, lineNumber := 1, state := .CacheLineClean,
             eTag := "abc", content := [3], waiters := [] })],
    config := { cacheLines := 1 } }

/-- Global state for the fatal-eviction scenario: the inode map is already
empty (reconfigure-remove detached inode 5) while its line 1 is still
inbound; capacity 1. -/
def gC9 : globalsStruct :=
  { inodeMap := [], inboundCacheLineCount := 1, cleanCacheLineLRU := [],
    lines := [(1, clC1)], config := { cacheLines := 1 } }

/-! ### Claim theorems -/

/-- C1, counterexample: a fetch for a line of inode 5, whose recorded ETag
is the non-empty `"abc"`, invokes the backend read with an empty `ifMatch`
(the fetch worker hardcodes `ifMatch: ""`), so the claim that the recorded
ETag is passed as the `if_match` precondition is false. -/
theorem fetch_ifMatch_empty_counterexample :
    (alistFind gC1.inodeMap 5).map inodeStruct.eTag = some "abc" ∧
    (cacheLineFetch gC1 1 (fun _ => .ok { eTag := "abc", buf := [1] }) id).backendCalls = 1 ∧
    (cacheLineFetch gC1 1 (fun _ => .ok { eTag := "abc", buf := [1] }) id).ifMatchSent = some "" := by
  decide

/-- C1, amended: every backend read the fetch worker issues carries
`ifMatch = ""`; the inode's recorded ETag is never supplied as a
precondition. -/
theorem fetch_ifMatch_always_empty (g : globalsStruct) (clId : Nat)
    (oracle : readFileInputStruct → Except Unit readFileOutputStruct)
    (mid : globalsStruct → globalsStruct) (s : String)
    (h : (cacheLineFetch g clId oracle mid).ifMatchSent = some s) :
    s = "" := by
  unfold cacheLineFetch at h
  split at h
  · simp at h
  · split at h
    · simp at h
    · dsimp only at h
      split at h <;> simp at h <;> exact h.symm

/-- C1, witness for the amended theorem at the concrete state `gC1`. -/
theorem fetch_ifMatch_always_empty_witness :
    (cacheLineFetch gC1 1 (fun _ => .ok { eTag := "abc", buf := [1] }) id).ifMatchSent
      = some "" ∧ ("" : String) = "" :=
  ⟨by decide,
   fetch_ifMatch_always_empty gC1 1 (fun _ => .ok { eTag := "abc", buf := [1] }) id ""
     (by decide)⟩

/-- C2: when the owning inode has been removed from the inode map while
the backend read was in flight (interference `mid` empties the map, as
reconfigure-remove does), the success completion path of the fetch worker
does NOT discard the fetched buffer: the cache line retains the bytes
`[7, 7]` returned by the backend and is pushed onto the clean LRU, despite
the inode being absent.  This contradicts the claim (and the spec's
reconfigure-remove step 4b / scenario 4); the code itself flags the branch
with `[WARN] [TODO] ... missing inodeStruct [case 3]`. -/
theorem fetch_missing_inode_retains_buffer :
    (let t := cacheLineFetch gC2 1 (fun _ => .ok { eTag := "e2", buf := [7, 7] })
        (fun g => { g with inodeMap := [] });
     t.outcome = .successPath ∧
     alistFind t.finalG.inodeMap 5 = none ∧
     (alistFind t.finalG.lines 1).map cacheLineStruct.content = some [7, 7] ∧
     1 ∈ t.finalG.cleanCacheLineLRU) := by
  decide

/-- C3, counterexample: a successful fetch completion with the inode
present leaves the system over capacity with a non-empty clean LRU
(capacity 1, LRU `[2, 1]` afterwards), and the final state is not a
`cachePrune` fixpoint — so `prune_if_over_capacity()` is not run inside
the completion critical section, contrary to the claim. -/
theorem fetch_success_no_prune_counterexample :
    (let t := cacheLineFetch gC3 1 (fun _ => .ok { eTag := "e", buf := [9] }) id;
     t.outcome = .successPath ∧
     t.finalG.config.cacheLines ≤
       t.finalG.inboundCacheLineCount + t.finalG.cleanCacheLineLRU.length ∧
     t.finalG.cleanCacheLineLRU = [2, 1] ∧
     cachePrune t.finalG ≠ some t.finalG) := by
  decide

/-- C3, amended: on every successful fetch completion with the owning
inode still present, the completion critical section updates the line's
buffer and ETag, transitions it to `Clean`, inserts it at the MRU (back)
end of the clean LRU, notifies all of its waiters and empties the waiter
list, and decrements the inode's and the global inbound counters — but it
does NOT run `prune_if_over_capacity()`: no line already on the clean LRU
is evicted by the completion section. -/
theorem fetch_success_updates_line (g : globalsStruct) (clId : Nat)
    (oracle : readFileInputStruct → Except Unit readFileOutputStruct)
    (mid : globalsStruct → globalsStruct)
    (cl clm : cacheLineStruct) (ino0 ino1 : inodeStruct)
    (out : readFileOutputStruct)
    (hcl : alistFind g.lines clId = some cl)
    (hino0 : alistFind g.inodeMap cl.inodeNumber = some ino0)
    (hor : oracle { filePath := ino0.objectPath, offsetCacheLine := cl.lineNumber,
                    ifMatch := "" } = .ok out)
    (hino1 : alistFind (mid g).inodeMap cl.inodeNumber = some ino1)
    (hclm : alistFind (mid g).lines clId = some clm) :
    (cacheLineFetch g clId oracle mid).outcome = .successPath ∧
    alistFind (cacheLineFetch g clId oracle mid).finalG.lines clId =
      some { clm with
               state := .CacheLineClean
               eTag := out.eTag
               content := out.buf
               waiters := [] } ∧
    (cacheLineFetch g clId oracle mid).finalG.cleanCacheLineLRU =
      (mid g).cleanCacheLineLRU ++ [clId] ∧
    (cacheLineFetch g clId oracle mid).notified = clm.waiters ∧
    (cacheLineFetch g clId oracle mid).stateAtNotify = .CacheLineClean ∧
    alistFind (cacheLineFetch g clId oracle mid).finalG.inodeMap cl.inodeNumber =
      some { ino1 with inboundCacheLineCount := dec64 ino1.inboundCacheLineCount } ∧
    (cacheLineFetch g clId oracle mid).finalG.inboundCacheLineCount =
      dec64 (mid g).inboundCacheLineCount ∧
    (∀ id, id ∈ (mid g).cleanCacheLineLRU →
       id ∈ (cacheLineFetch g clId oracle mid).finalG.cleanCacheLineLRU) := by
  rw [cacheLineFetch_ok_eq g clId oracle mid cl clm ino0 ino1 out hcl hino0 hor
    hino1 hclm]
  refine ⟨rfl, ?_, rfl, rfl, rfl, ?_, rfl, ?_⟩
  · dsimp only [updateLine, updateInode]
    rw [alistFind_update]
    simp [hclm]
  · dsimp only [updateLine, updateInode]
    rw [alistFind_update]
    simp [hino1]
  · intro id hid
    exact List.mem_append_left _ hid

/-- C3, witness for the amended theorem: the concrete completion on `gC3`
(inode present throughout, read returns ETag `"e"` and bytes `[9]`). -/
theorem fetch_success_updates_line_witness :
    (cacheLineFetch gC3 1 (fun _ => .ok { eTag := "e", buf := [9] }) id).outcome
        = .successPath ∧
    alistFind (cacheLineFetch gC3 1 (fun _ => .ok { eTag := "e", buf := [9] }) id).finalG.lines 1 =
      some { clC1 with
               state := .CacheLineClean
               eTag := "e"
               content := [9]
               waiters := [] } ∧
    (cacheLineFetch gC3 1 (fun _ => .ok { eTag := "e", buf := [9] }) id).finalG.cleanCacheLineLRU =
      (id gC3).cleanCacheLineLRU ++ [1] ∧
    (cacheLineFetch gC3 1 (fun _ => .ok { eTag := "e", buf := [9] }) id).notified = clC1.waiters ∧
    (cacheLineFetch gC3 1 (fun _ => .ok { eTag := "e", buf := [9] }) id).stateAtNotify
        = .CacheLineClean ∧
    alistFind (cacheLineFetch gC3 1 (fun _ => .ok { eTag := "e", buf := [9] }) id).finalG.inodeMap
        clC1.inodeNumber =
      some { objectPath := "obj", eTag := "abc",
             inboundCacheLineCount :=
               dec64 (inodeStruct.inboundCacheLineCount
                 { objectPath := "obj", eTag := "abc", inboundCacheLineCount := 1,
                   cache := [(0, 1), (1, 2)] }),
             cache := [(0, 1), (1, 2)] } ∧
    (cacheLineFetch gC3 1 (fun _ => .ok { eTag := "e", buf := [9] }) id).finalG.inboundCacheLineCount =
      dec64 (id gC3).inboundCacheLineCount ∧
    (∀ id2, id2 ∈ (id gC3).cleanCacheLineLRU →
       id2 ∈ (cacheLineFetch gC3 1 (fun _ => .ok { eTag := "e", buf := [9] }) id).finalG.cleanCacheLineLRU) :=
  fetch_success_updates_line gC3 1 (fun _ => .ok { eTag := "e", buf := [9] }) id
    clC1
    clC1
    { objectPath := "obj", eTag := "abc", inboundCacheLineCount := 1,
      cache := [(0, 1), (1, 2)] }
    { objectPath := "obj", eTag := "abc", inboundCacheLineCount := 1,
      cache := [(0, 1), (1, 2)] }
    { eTag := "e", buf := [9] }
    (by decide) (by decide) rfl (by decide) (by decide)

/-- C5: a fetch worker leaves the line's state non-`Inbound`
(`CacheLineClean`) at the moment `notifyWaiters` runs on every completion
path; the waiters present on the line at that moment are each signalled
exactly once and the waiter list is then emptied (notably, if
`notifyWaiters` were run a second time on the resulting line it would
signal nobody). -/
theorem fetch_notifies_once_after_clean (g : globalsStruct) (clId : Nat)
    (oracle : readFileInputStruct → Except Unit readFileOutputStruct)
    (mid : globalsStruct → globalsStruct)
    (cl clm : cacheLineStruct)
    (hcl : alistFind g.lines clId = some cl)
    (hclm : alistFind (mid g).lines clId = some clm) :
    (cacheLineFetch g clId oracle mid).stateAtNotify = .CacheLineClean ∧
    (cacheLineFetch g clId oracle mid).stateAtNotify ≠ .CacheLineInbound ∧
    (alistFind (cacheLineFetch g clId oracle mid).finalG.lines clId).map
        cacheLineStruct.waiters = some [] ∧
    ((cacheLineFetch g clId oracle mid).outcome = .missingInodeEarly →
       (cacheLineFetch g clId oracle mid).notified = cl.waiters) ∧
    (((cacheLineFetch g clId oracle mid).outcome = .errorPath ∨
      (cacheLineFetch g clId oracle mid).outcome = .successPath) →
       (cacheLineFetch g clId oracle mid).notified = clm.waiters) ∧
    (∀ c : cacheLineStruct,
       (notifyWaiters c).1 = c.waiters ∧ ((notifyWaiters c).2).waiters = [] ∧
       (notifyWaiters (notifyWaiters c).2).1 = []) := by
  unfold cacheLineFetch
  rw [hcl]
  dsimp only
  rcases hino0 : alistFind g.inodeMap cl.inodeNumber with _ | ino0
  · simp [updateLine, notifyWaiters, alistFind_update, hcl]
  · dsimp only
    rcases hor : oracle { filePath := ino0.objectPath, offsetCacheLine := cl.lineNumber, ifMatch := "" } with u | out <;>
      · dsimp only [updateInode, updateLine, notifyWaiters]
        rcases hino1 : alistFind (mid g).inodeMap cl.inodeNumber with _ | ino1 <;>
          · dsimp only
            rw [hclm]
            simp [Option.getD, alistFind_update, hclm, notifyWaiters, updateLine,
              updateInode]

/-- C5, witness at the concrete state `gC2` (waiter 10 attached) with a
successful read and no interference. -/
theorem fetch_notifies_once_after_clean_witness :
    (cacheLineFetch gC2 1 (fun _ => .ok { eTag := "e2", buf := [7] }) id).stateAtNotify
        = .CacheLineClean ∧
    (cacheLineFetch gC2 1 (fun _ => .ok { eTag := "e2", buf := [7] }) id).stateAtNotify
        ≠ .CacheLineInbound ∧
    (alistFind (cacheLineFetch gC2 1 (fun _ => .ok { eTag := "e2", buf := [7] }) id).finalG.lines 1).map
        cacheLineStruct.waiters = some [] ∧
    ((cacheLineFetch gC2 1 (fun _ => .ok { eTag := "e2", buf := [7] }) id).outcome
        = .missingInodeEarly →
       (cacheLineFetch gC2 1 (fun _ => .ok { eTag := "e2", buf := [7] }) id).notified =
         ({ clC1 with waiters := [10] } : cacheLineStruct).waiters) ∧
    (((cacheLineFetch gC2 1 (fun _ => .ok { eTag := "e2", buf := [7] }) id).outcome
        = .errorPath ∨
      (cacheLineFetch gC2 1 (fun _ => .ok { eTag := "e2", buf := [7] }) id).outcome
        = .successPath) →
       (cacheLineFetch gC2 1 (fun _ => .ok { eTag := "e2", buf := [7] }) id).notified =
         ({ clC1 with waiters := [10] } : cacheLineStruct).waiters) ∧
    (∀ c : cacheLineStruct,
       (notifyWaiters c).1 = c.waiters ∧ ((notifyWaiters c).2).waiters = [] ∧
       (notifyWaiters (notifyWaiters c).2).1 = []) :=
  fetch_notifies_once_after_clean gC2 1 (fun _ => .ok { eTag := "e2", buf := [7] }) id
    { clC1 with waiters := [10] } { clC1 with waiters := [10] }
    (by decide) (by decide)

/-- C6: when the backend read fails and the owning inode still exists at
completion, the line transitions to `Clean` with empty buffer and empty
recorded ETag, all its waiters are notified (and the list emptied), the
backend was invoked exactly once (the engine does not retry), and no
other cache line's struct is altered by the completion section. -/
theorem fetch_error_confined (g : globalsStruct) (clId : Nat)
    (oracle : readFileInputStruct → Except Unit readFileOutputStruct)
    (mid : globalsStruct → globalsStruct)
    (cl clm : cacheLineStruct) (ino0 ino1 : inodeStruct)
    (hcl : alistFind g.lines clId = some cl)
    (hino0 : alistFind g.inodeMap cl.inodeNumber = some ino0)
    (hor : oracle { filePath := ino0.objectPath, offsetCacheLine := cl.lineNumber,
                    ifMatch := "" } = .error ())
    (hino1 : alistFind (mid g).inodeMap cl.inodeNumber = some ino1)
    (hclm : alistFind (mid g).lines clId = some clm) :
    (cacheLineFetch g clId oracle mid).outcome = .errorPath ∧
    alistFind (cacheLineFetch g clId oracle mid).finalG.lines clId =
      some { clm with
               state := .CacheLineClean
               eTag := ""
               content := []
               waiters := [] } ∧
    (cacheLineFetch g clId oracle mid).notified = clm.waiters ∧
    (cacheLineFetch g clId oracle mid).backendCalls = 1 ∧
    (∀ j, j ≠ clId →
       alistFind (cacheLineFetch g clId oracle mid).finalG.lines j =
         alistFind (mid g).lines j) := by
  rw [cacheLineFetch_err_eq g clId oracle mid cl clm ino0 ino1 hcl hino0 hor
    hino1 hclm]
  refine ⟨rfl, ?_, rfl, rfl, ?_⟩
  · dsimp only [updateLine, updateInode]
    rw [alistFind_update]
    simp [hclm]
  · intro j hj
    dsimp only [updateLine, updateInode]
    rw [alistFind_update, if_neg (fun h : clId = j => hj h.symm)]

/-- C6, witness: a failing read on `gC2` (inode present, waiter 10). -/
theorem fetch_error_confined_witness :
    (cacheLineFetch gC2 1 (fun _ => .error ()) id).outcome = .errorPath ∧
    alistFind (cacheLineFetch gC2 1 (fun _ => .error ()) id).finalG.lines 1 =
      some { clC1 with
               state := .CacheLineClean
               eTag := ""
               content := []
               waiters := [] } ∧
    (cacheLineFetch gC2 1 (fun _ => .error ()) id).notified =
      ({ clC1 with waiters := [10] } : cacheLineStruct).waiters ∧
    (cacheLineFetch gC2 1 (fun _ => .error ()) id).backendCalls = 1 ∧
    (∀ j, j ≠ 1 →
       alistFind (cacheLineFetch gC2 1 (fun _ => .error ()) id).finalG.lines j =
         alistFind (id gC2).lines j) :=
  fetch_error_confined gC2 1 (fun _ => .error ()) id
    { clC1 with waiters := [10] } { clC1 with waiters := [10] }
    inoC1 inoC1 (by decide) (by decide) rfl (by decide) (by decide)

/-- C9: the fetch worker pushes a cache line onto the clean LRU even when
its owning inode is absent from the inode map (here case 1; cases 2 and 3
behave alike), after which `cachePrune` reaches its
`globals.inodeMap[cacheLineToEvict.inodeNumber] returned !ok` branch and
aborts (`Fatalf`, embedded as `none`): the claimed invariant is violated
by the code and the fatal branch is reachable. -/
theorem fetch_lru_missing_inode_fatal :
    (let t := cacheLineFetch gC9 1 (fun _ => .ok { eTag := "e", buf := [1] }) id;
     t.outcome = .missingInodeEarly ∧
     1 ∈ t.finalG.cleanCacheLineLRU ∧
     alistFind t.finalG.inodeMap 5 = none ∧
     cachePrune t.finalG = none) := by
  decide

/-- C7: for a `readFile` with non-empty `ifMatch`, both drivers issue a
HEAD as their first backend call, and whenever the ETag observed by that
HEAD is present and differs from `ifMatch` (for S3 after stripping the
surrounding quotes), the driver returns `errors.New("eTag mismatch")`
with no file data and performs no GET. -/
theorem readFile_ifMatch_head_then_get (input : readFileInputStruct)
    (headS3 : Except Unit s3HeadOutputStruct) (getS3 : Except Unit s3GetOutputStruct)
    (headAis : Except Unit aisHeadOutputStruct) (getAis : Except Unit aisGetOutputStruct)
    (him : input.ifMatch ≠ "") :
    (s3ReadFile input headS3 getS3).ops.head? = some .headOp ∧
    (aisReadFile input headAis getAis).ops.head? = some .headOp ∧
    (∀ e, headS3 = .ok { eTag := some e } → input.ifMatch ≠ trimQuotes e →
      s3ReadFile input headS3 getS3 =
        { ops := [.headOp], output := none, errMsg := some .eTagMismatch }) ∧
    (∀ c, headAis = .ok { cksum := some c } → c ≠ input.ifMatch →
      aisReadFile input headAis getAis =
        { ops := [.headOp], output := none, errMsg := some .eTagMismatch }) := by
  refine ⟨?_, ?_, ?_, ?_⟩
  · rcases headS3 with _ | h
    · simp [s3ReadFile]
    · rcases he : h.eTag with _ | e
      · rcases getS3 with _ | gout
        · simp [s3ReadFile, him, he]
        · rcases hb : gout.body with u | b <;> simp [s3ReadFile, him, he, hb]
      · by_cases hmm : input.ifMatch = trimQuotes e
        · rcases getS3 with _ | gout
          · simp [s3ReadFile, him, he, hmm]
          · rcases hb : gout.body with u | b <;>
              simp [s3ReadFile, him, he, hmm, hb]
        · simp [s3ReadFile, him, he, hmm]
  · rcases headAis with _ | h
    · simp [aisReadFile, him]
    · rcases hc : h.cksum with _ | c
      · rcases getAis with _ | gout <;> simp [aisReadFile, him, hc]
      · by_cases hmm : c = input.ifMatch
        · rcases getAis with _ | gout <;> simp [aisReadFile, him, hc, hmm]
        · simp [aisReadFile, him, hc, hmm]
  · intro e hhead hmm
    subst hhead
    simp [s3ReadFile, him, hmm]
  · intro c hhead hmm
    subst hhead
    simp [aisReadFile, him, hmm]

/-- C7, witness at concrete inputs: `ifMatch = "x"`, S3 HEAD observes
`"\x22y\x22"` (trimmed `"y"`), AIStore HEAD observes checksum `"y"`; both
mismatch and both return the eTag-mismatch error with no data. -/
theorem readFile_ifMatch_head_then_get_witness :
    (("x" : String) ≠ "") ∧
    s3ReadFile { filePath := "p", offsetCacheLine := 0, ifMatch := "x" }
        (.ok { eTag := some "\"y\"" }) (.ok { eTag := some "\"y\"", body := .ok [] }) =
      { ops := [.headOp], output := none, errMsg := some .eTagMismatch } ∧
    aisReadFile { filePath := "p", offsetCacheLine := 0, ifMatch := "x" }
        (.ok { cksum := some "y" }) (.ok { cksumValue := "y", body := [] }) =
      { ops := [.headOp], output := none, errMsg := some .eTagMismatch } :=
  ⟨by decide,
   (readFile_ifMatch_head_then_get
      { filePath := "p", offsetCacheLine := 0, ifMatch := "x" }
      (.ok { eTag := some "\"y\"" }) (.ok { eTag := some "\"y\"", body := .ok [] })
      (.ok { cksum := some "y" }) (.ok { cksumValue := "y", body := [] })
      (by decide)).2.2.1 "\"y\"" rfl (by decide),
   (readFile_ifMatch_head_then_get
      { filePath := "p", offsetCacheLine := 0, ifMatch := "x" }
      (.ok { eTag := some "\"y\"" }) (.ok { eTag := some "\"y\"", body := .ok [] })
      (.ok { cksum := some "y" }) (.ok { cksumValue := "y", body := [] })
      (by decide)).2.2.2 "y" rfl (by decide)⟩

/-- C8, counterexample: on an empty listing for the non-empty directory
path `"a/"`, the S3 driver does NOT synthesize a present-directory
response — it returns `errors.New("missing directory")` exactly like the
AIStore driver, so the claimed driver divergence is false as stated. -/
theorem statDirectory_empty_s3_counterexample :
    aisStatDirectory (.ok (some [])) = some .missingDirectory ∧
    s3StatDirectory "a/" (.ok ([], [])) = some .missingDirectory := by
  decide

/-- C8, amended: on an empty listing the AIStore driver always returns
`missing directory` (also when the listing result or its entries are
nil); the S3 driver returns `missing directory` as well whenever the full
directory path (`backend.prefix + dirPath`) is non-empty, and synthesizes
a present-directory response only when that full path is empty. -/
theorem statDirectory_empty_behavior (fullDirPath : String)
    (hnonempty : fullDirPath ≠ "") :
    aisStatDirectory (.ok (some [])) = some .missingDirectory ∧
    aisStatDirectory (.ok none) = some .missingDirectory ∧
    s3StatDirectory fullDirPath (.ok ([], [])) = some .missingDirectory ∧
    s3StatDirectory "" (.ok ([], [])) = none := by
  refine ⟨by decide, by decide, ?_, by decide⟩
  simp [s3StatDirectory, hnonempty]

/-- C8, witness for the amended theorem at the path `"a/"`. -/
theorem statDirectory_empty_behavior_witness :
    (("a/" : String) ≠ "") ∧
    (aisStatDirectory (.ok (some [])) = some .missingDirectory ∧
     aisStatDirectory (.ok none) = some .missingDirectory ∧
     s3StatDirectory "a/" (.ok ([], [])) = some .missingDirectory ∧
     s3StatDirectory "" (.ok ([], [])) = none) :=
  ⟨by decide, statDirectory_empty_behavior "a/" (by decide)⟩

/-- C10: when no inline token is configured, a token file is configured,
and loading it fails, `setupAIStoreContext` discards the load error: it
returns no error, registers the context, and uses an empty AuthN token. -/
theorem setupAIStoreContext_token_load_failure (authnTokenFile : String)
    (loadToken : String → Except Unit String)
    (hfile : authnTokenFile ≠ "")
    (hload : loadToken authnTokenFile = .error ()) :
    (setupAIStoreContext "" authnTokenFile loadToken).err = none ∧
    (setupAIStoreContext "" authnTokenFile loadToken).token = "" ∧
    (setupAIStoreContext "" authnTokenFile loadToken).contextRegistered = true := by
  simp [setupAIStoreContext, hfile, hload]

/-- C10, witness at the concrete file name `"tok.file"` and an
always-failing loader. -/
theorem setupAIStoreContext_token_load_failure_witness :
    (("tok.file" : String) ≠ "") ∧
    ((setupAIStoreContext "" "tok.file" (fun _ => .error ())).err = none ∧
     (setupAIStoreContext "" "tok.file" (fun _ => .error ())).token = "" ∧
     (setupAIStoreContext "" "tok.file" (fun _ => .error ())).contextRegistered = true) :=
  ⟨by decide,
   setupAIStoreContext_token_load_failure "tok.file" (fun _ => .error ())
     (by decide) rfl⟩

end Msfs
